import Mathlib

/-!
Verification development for the multi-speaker conversation engine
(`backend/services/conversation_engine.py`).

The Python code is shallowly embedded: Python strings become `List Char`,
floats become rationals, the `random` draws and the external audio
collaborators (the TTS backend, pydub, the background-sound generator)
become explicit parameters.  Regular-expression substitutions are embedded
as character scanners that reproduce Python's leftmost, non-overlapping
`re.sub` semantics for the concrete patterns appearing in the source
(each of those patterns is deterministic: greedy runs followed by literal
delimiters, so no general backtracking engine is needed).  Character
classes (whitespace, digits) are taken on the ASCII range.

Scanners use an explicit fuel argument (initialised to the input length;
every scanner step consumes at least one input character, so the fuel never
runs out) to make the recursion structural and kernel-computable.
-/

namespace ConvEngine

/-- The `EmotionType` enum of the source (10 values). -/
inductive EmotionType where
  | NEUTRAL | HAPPY | EXCITED | SAD | ANGRY
  | SURPRISED | CONFUSED | CONFIDENT | NERVOUS | WHISPERING
deriving DecidableEq, Repr, Fintype

/-- Declaration order of the `EmotionType` enum members (Python iteration order). -/
def allEmotions : List EmotionType :=
  [.NEUTRAL, .HAPPY, .EXCITED, .SAD, .ANGRY,
   .SURPRISED, .CONFUSED, .CONFIDENT, .NERVOUS, .WHISPERING]

/-- The `ConversationStyle` enum of the source (7 values). -/
inductive ConversationStyle where
  | NATURAL | INTERVIEW | DEBATE | PODCAST | CASUAL | FORMAL | DRAMATIC
deriving DecidableEq, Repr

/-- Python's regex class `\s` restricted to the ASCII range:
space, tab, newline, carriage return, vertical tab, form feed. -/
def isWs (c : Char) : Bool :=
  c == ' ' || c == '\t' || c == '\n' || c == '\r' ||
  c == Char.ofNat 11 || c == Char.ofNat 12

/-- The backtick character (code point 96). -/
def btick : Char := Char.ofNat 96

/-! Section: `_clean_markdown_for_tts`.
One scanner per `re.sub` call of the source, applied in source order. -/

/-- Generic scanner for the wrapped-span substitutions of
`_clean_markdown_for_tts`: pattern `opn [^forb]+ cls` (or `[^forb]*` when
`allowEmpty`), replaced by the inner text when `keepInner`, by nothing
otherwise.  Covers `**bold**`, `*italic*`, `__bold__`, `_italic_`,
fenced code, inline code and HTML tags. -/
def subWrapAux (opn cls : List Char) (forb : Char) (keepInner allowEmpty : Bool) :
    Nat → List Char → List Char
  | 0, l => l
  | _ + 1, [] => []
  | fuel + 1, c :: rest =>
    if opn.isPrefixOf (c :: rest) then
      let r := (c :: rest).drop opn.length
      let inner := r.takeWhile (fun x => x ≠ forb)
      let after := r.dropWhile (fun x => x ≠ forb)
      if (allowEmpty || !inner.isEmpty) && cls.isPrefixOf after then
        (if keepInner then inner else []) ++
          subWrapAux opn cls forb keepInner allowEmpty fuel (after.drop cls.length)
      else
        c :: subWrapAux opn cls forb keepInner allowEmpty fuel rest
    else
      c :: subWrapAux opn cls forb keepInner allowEmpty fuel rest

/-- Embeds `re.sub(r'\*\*([^*]+)\*\*', r'\1', ·)` -/
def subBold (l : List Char) : List Char :=
  subWrapAux ['*', '*'] ['*', '*'] '*' true false l.length l

/-- Embeds `re.sub(r'\*([^*]+)\*', r'\1', ·)` -/
def subItalic (l : List Char) : List Char :=
  subWrapAux ['*'] ['*'] '*' true false l.length l

/-- Embeds `re.sub(r'__([^_]+)__', r'\1', ·)` -/
def subDunder (l : List Char) : List Char :=
  subWrapAux ['_', '_'] ['_', '_'] '_' true false l.length l

/-- Embeds `re.sub(r'_([^_]+)_', r'\1', ·)` -/
def subUnder (l : List Char) : List Char :=
  subWrapAux ['_'] ['_'] '_' true false l.length l

/-- Embeds ``re.sub(r'```[^`]*```', '', ·, flags=re.DOTALL)`` (the flag is inert:
the pattern has no dot). -/
def subCodeFence (l : List Char) : List Char :=
  subWrapAux [btick, btick, btick] [btick, btick, btick] btick false true l.length l

/-- Embeds ``re.sub(r'`([^`]+)`', r'\1', ·)`` -/
def subInlineCode (l : List Char) : List Char :=
  subWrapAux [btick] [btick] btick true false l.length l

/-- Embeds `re.sub(r'<[^>]+>', '', ·)` -/
def subHtml (l : List Char) : List Char :=
  subWrapAux ['<'] ['>'] '>' false false l.length l

/-- Embeds `re.sub(r'^#{1,6}\s+', '', ·, flags=re.MULTILINE)`.  The `Bool`
argument records whether the current position is a line start (`^`). -/
def subHeadersAux : Nat → Bool → List Char → List Char
  | 0, _, l => l
  | _ + 1, _, [] => []
  | fuel + 1, atStart, c :: rest =>
    if atStart then
      let hs := (c :: rest).takeWhile (fun x => x == '#')
      let t := (c :: rest).dropWhile (fun x => x == '#')
      let ws := t.takeWhile isWs
      if !hs.isEmpty && hs.length ≤ 6 && !ws.isEmpty then
        subHeadersAux fuel (ws.getLastD ' ' == '\n') (t.drop ws.length)
      else c :: subHeadersAux fuel (c == '\n') rest
    else c :: subHeadersAux fuel (c == '\n') rest

def subHeaders (l : List Char) : List Char := subHeadersAux l.length true l

/-- Embeds `re.sub(r'\[([^\]]+)\]\([^)]+\)', r'\1', ·)` -/
def subLinksAux : Nat → List Char → List Char
  | 0, l => l
  | _ + 1, [] => []
  | fuel + 1, c :: rest =>
    if c == '[' then
      let txt := rest.takeWhile (fun x => x ≠ ']')
      let a1 := rest.dropWhile (fun x => x ≠ ']')
      match a1 with
      | ']' :: '(' :: r2 =>
        let url := r2.takeWhile (fun x => x ≠ ')')
        let a2 := r2.dropWhile (fun x => x ≠ ')')
        match a2 with
        | ')' :: r3 =>
          if !txt.isEmpty && !url.isEmpty then txt ++ subLinksAux fuel r3
          else c :: subLinksAux fuel rest
        | _ => c :: subLinksAux fuel rest
      | _ => c :: subLinksAux fuel rest
    else c :: subLinksAux fuel rest

def subLinks (l : List Char) : List Char := subLinksAux l.length l

/-- Embeds `re.sub(r'^\s*[-*+]\s+', '', ·, flags=re.MULTILINE)` -/
def subBulletsAux : Nat → Bool → List Char → List Char
  | 0, _, l => l
  | _ + 1, _, [] => []
  | fuel + 1, atStart, c :: rest =>
    if atStart then
      let t := (c :: rest).dropWhile isWs
      match t with
      | m :: t2 =>
        let ws1 := t2.takeWhile isWs
        if (m == '-' || m == '*' || m == '+') && !ws1.isEmpty then
          subBulletsAux fuel (ws1.getLastD ' ' == '\n') (t2.drop ws1.length)
        else c :: subBulletsAux fuel (c == '\n') rest
      | [] => c :: subBulletsAux fuel (c == '\n') rest
    else c :: subBulletsAux fuel (c == '\n') rest

def subBullets (l : List Char) : List Char := subBulletsAux l.length true l

/-- Embeds `re.sub(r'^\s*\d+\.\s+', '', ·, flags=re.MULTILINE)` -/
def subNumberedAux : Nat → Bool → List Char → List Char
  | 0, _, l => l
  | _ + 1, _, [] => []
  | fuel + 1, atStart, c :: rest =>
    if atStart then
      let t := (c :: rest).dropWhile isWs
      let ds := t.takeWhile Char.isDigit
      let t2 := t.dropWhile Char.isDigit
      let ws1 := t2.tail.takeWhile isWs
      if t2.headD ' ' == '.' && !ds.isEmpty && !ws1.isEmpty then
        subNumberedAux fuel (ws1.getLastD ' ' == '\n') (t2.tail.drop ws1.length)
      else c :: subNumberedAux fuel (c == '\n') rest
    else c :: subNumberedAux fuel (c == '\n') rest

def subNumbered (l : List Char) : List Char := subNumberedAux l.length true l

/-- Embeds `re.sub(r'^>\s+', '', ·, flags=re.MULTILINE)` -/
def subBlockquoteAux : Nat → Bool → List Char → List Char
  | 0, _, l => l
  | _ + 1, _, [] => []
  | fuel + 1, atStart, c :: rest =>
    if atStart && c == '>' then
      let ws := rest.takeWhile isWs
      if !ws.isEmpty then
        subBlockquoteAux fuel (ws.getLastD ' ' == '\n') (rest.drop ws.length)
      else c :: subBlockquoteAux fuel false rest
    else c :: subBlockquoteAux fuel (c == '\n') rest

def subBlockquote (l : List Char) : List Char := subBlockquoteAux l.length true l

/-- Embeds `re.sub(r'^[-*_]{3,}$', '', ·, flags=re.MULTILINE)`.  (`$` matches the
end of the input or the position before a newline and consumes nothing.) -/
def subHrAux : Nat → Bool → List Char → List Char
  | 0, _, l => l
  | _ + 1, _, [] => []
  | fuel + 1, atStart, c :: rest =>
    if atStart then
      let run := (c :: rest).takeWhile (fun x => x == '-' || x == '*' || x == '_')
      let t := (c :: rest).dropWhile (fun x => x == '-' || x == '*' || x == '_')
      if 3 ≤ run.length && (t.isEmpty || t.headD ' ' == '\n') then
        subHrAux fuel false t
      else c :: subHrAux fuel (c == '\n') rest
    else c :: subHrAux fuel (c == '\n') rest

def subHr (l : List Char) : List Char := subHrAux l.length true l

/-- Longest all-whitespace strict prefix of the input that ends with a
newline; returns the remainder after it (backtracked `\s*` followed by
`\n`). -/
def dropWsNl : List Char → Option (List Char)
  | [] => none
  | c :: rest =>
    if isWs c then
      match dropWsNl rest with
      | some r => some r
      | none => if c == '\n' then some rest else none
    else none

/-- Embeds `re.sub(r'\n\s*\n', ' ', ·)` -/
def subBlankLinesAux : Nat → List Char → List Char
  | 0, l => l
  | _ + 1, [] => []
  | fuel + 1, c :: rest =>
    if c == '\n' then
      match dropWsNl rest with
      | some r => ' ' :: subBlankLinesAux fuel r
      | none => '\n' :: subBlankLinesAux fuel rest
    else c :: subBlankLinesAux fuel rest

def subBlankLines (l : List Char) : List Char := subBlankLinesAux l.length l

/-- Embeds `re.sub(r'\s+', ' ', ·)` -/
def subWsRunsAux : Nat → List Char → List Char
  | 0, l => l
  | _ + 1, [] => []
  | fuel + 1, c :: rest =>
    if isWs c then ' ' :: subWsRunsAux fuel (rest.dropWhile isWs)
    else c :: subWsRunsAux fuel rest

def subWsRuns (l : List Char) : List Char := subWsRunsAux l.length l

/-- Python `str.strip()` (ASCII whitespace). -/
def stripWs (l : List Char) : List Char :=
  ((l.dropWhile isWs).reverse.dropWhile isWs).reverse

/-- Embeds `_clean_markdown_for_tts`: the fourteen `re.sub` passes of the source,
in source order, followed by `strip()`. -/
def clean_markdown_for_tts (l : List Char) : List Char :=
  stripWs <| subWsRuns <| subBlankLines <| subHtml <| subHr <| subBlockquote <|
    subNumbered <| subBullets <| subInlineCode <| subCodeFence <| subLinks <|
      subHeaders <| subUnder <| subDunder <| subItalic <| subBold l

/-! Section: Data model -/

/-- The `SpeakerProfile` dataclass of the source. -/
structure SpeakerProfile where
  name : String
  voice_id : String
  personality : String
  speaking_rate : ℚ
  emotion_tendency : EmotionType
  interruption_likelihood : ℚ
  pause_preference : ℚ
deriving DecidableEq, Repr

/-- The `ConversationSegment` dataclass of the source. -/
structure ConversationSegment where
  speaker : String
  text : List Char
  emotion : EmotionType
  pause_before : ℚ
  pause_after : ℚ
  speech_rate : ℚ
  emphasis_words : List (List Char)
  background_sound : Option String := none
deriving DecidableEq, Repr

/-- The `ConversationMetadata` dataclass of the source; the emotion-distribution
dict (keyed by every enum member) is embedded as a total function. -/
structure ConversationMetadata where
  total_duration : ℚ
  speaker_count : Nat
  word_count : Nat
  emotion_distribution : EmotionType → ℚ
  interaction_complexity : ℚ

/-! Section: `_initialize_pause_patterns` and `_calculate_natural_pauses` -/

/-- One entry of the per-style pause table. -/
structure PauseConfig where
  sentence_end : ℚ
  comma : ℚ
  question : ℚ
  speaker_change : ℚ
  interruption : ℚ
  thinking : ℚ
deriving DecidableEq, Repr

/-- The `ConversationStyle.NATURAL` row of `_initialize_pause_patterns`. -/
def natural_pause_config : PauseConfig := ⟨0.8, 0.3, 1.2, 1.0, 0.1, 0.5⟩

/-- Embeds `_initialize_pause_patterns`: the dict literal of the source.  `FORMAL`
and `DRAMATIC` have no entry (`none`). -/
def pause_patterns : ConversationStyle → Option PauseConfig
  | .NATURAL => some natural_pause_config
  | .INTERVIEW => some ⟨0.6, 0.2, 2.0, 1.5, 0.05, 0.8⟩
  | .DEBATE => some ⟨0.4, 0.15, 1.0, 0.3, 0.0, 0.2⟩
  | .PODCAST => some ⟨1.0, 0.4, 1.5, 1.8, 0.02, 1.0⟩
  | .CASUAL => some ⟨0.5, 0.2, 0.8, 0.6, 0.2, 0.4⟩
  | .FORMAL => none
  | .DRAMATIC => none

/-- The discourse connectives checked by `_calculate_natural_pauses`. -/
def thinking_words : List (List Char) :=
  ["however".data, "therefore".data, "furthermore".data, "meanwhile".data]

/-- Python `pat in text` substring containment. -/
def has_sub (pat : List Char) : List Char → Bool
  | [] => pat.isEmpty
  | l@(_ :: rest) => pat.isPrefixOf l || has_sub pat rest

/-- Embeds `_calculate_natural_pauses`.  `profiles` is the engine's
`speaker_profiles` dict; `j1`/`j2` are the two `random.uniform` jitter
outcomes (drawn from `[-0.1, 0.1]` and `[-0.2, 0.2]` at runtime, but the
result bounds hold for arbitrary values).  Python's truthiness test
`previous_speaker and previous_speaker != speaker` is embedded including
the empty-string case. -/
def calculate_natural_pauses (profiles : String → Option SpeakerProfile)
    (text : List Char) (speaker : String) (previous_speaker : Option String)
    (style : ConversationStyle) (j1 j2 : ℚ) : ℚ × ℚ :=
  let cfg := (pause_patterns style).getD natural_pause_config
  let pause_before : ℚ :=
    match previous_speaker with
    | some p => if p ≠ "" ∧ p ≠ speaker then cfg.speaker_change else 0.2
    | none => 0.2
  let pause_after : ℚ := cfg.sentence_end
  let pause_after :=
    if text.getLast? = some '?' then cfg.question
    else if text.getLast? = some '!' then pause_after * 1.2
    else if text.contains ',' then max pause_after cfg.comma
    else pause_after
  let lower := text.map Char.toLower
  let pause_after :=
    if thinking_words.any (fun w => has_sub w lower) then pause_after + cfg.thinking
    else pause_after
  let pause_after :=
    match profiles speaker with
    | some prof => pause_after * prof.pause_preference
    | none => pause_after
  let pause_before := pause_before + j1
  let pause_after := pause_after + j2
  (max 0.1 pause_before, max 0.2 pause_after)

/-! Section: `_initialize_speaker_profiles` -/

/-- The `personalities` list of `_initialize_speaker_profiles`. -/
def personalities : List String :=
  ["energetic", "calm", "authoritative", "friendly", "analytical", "creative"]

/-- The `fallback_voices` list of `_initialize_speaker_profiles`. -/
def fallback_voices : List String :=
  ["vibevoice-alice", "vibevoice-andrew", "vibevoice-large-alice"]

/-- Loop body of `_initialize_speaker_profiles`.  `available` is the
backend's voice catalog (keys of `voice_configs`); `rate`, `ilike`, `ppref`
give the `random.uniform` outcomes for the speaker at ordinal `i` (their
style-dependent ranges do not matter to the claims); `i` is the enumeration
index and `fbIdx` the running `fallback_index`. -/
def init_speaker_profiles_go (available : List String)
    (rate ilike ppref : Nat → ℚ) :
    Nat → Nat → List (String × String) → List (String × SpeakerProfile)
  | _, _, [] => []
  | i, fbIdx, (speaker_name, requested_voice_id) :: rest =>
    let hit := available.contains requested_voice_id
    let voice_id := if hit then requested_voice_id
      else fallback_voices.getD (fbIdx % fallback_voices.length) ""
    let fbIdx' := if hit then fbIdx else fbIdx + 1
    (speaker_name,
      ⟨speaker_name, voice_id, personalities.getD (i % personalities.length) "",
       rate i, .NEUTRAL, ilike i, ppref i⟩) ::
      init_speaker_profiles_go available rate ilike ppref (i + 1) fbIdx' rest

/-- Embeds `_initialize_speaker_profiles` (voice resolution plus profile
construction); returns the `speaker_profiles` dict as an association list
in insertion order. -/
def init_speaker_profiles (available : List String) (rate ilike ppref : Nat → ℚ)
    (speaker_mapping : List (String × String)) : List (String × SpeakerProfile) :=
  init_speaker_profiles_go available rate ilike ppref 0 0 speaker_mapping

/-- Embeds `self.speaker_profiles.get(name)`. -/
def lookup_profile (profiles : List (String × SpeakerProfile)) (name : String) :
    Option SpeakerProfile :=
  profiles.lookup name

/-! Section: `_add_natural_interactions` -/

/-- The fixed reaction list of `_add_natural_interactions`. -/
def reactions : List (List Char) :=
  ["Mm-hmm".data, "Right".data, "Exactly".data, "Oh".data, "Wow".data,
   "Really?".data, "I see".data]

/-- Loop of `_add_natural_interactions`: after every segment except the
last, when `random.random()` (= `rnd i`) falls below the next speaker's
`interruption_likelihood`, insert a reaction segment (`random.choice`
embedded as an arbitrary index `pick i`, taken modulo the list length). -/
def add_natural_interactions_go (profiles : String → Option SpeakerProfile)
    (rnd : Nat → ℚ) (pick : Nat → Nat) :
    Nat → List ConversationSegment → List ConversationSegment
  | _, [] => []
  | _, [s] => [s]
  | i, s :: next :: rest =>
    let tail := add_natural_interactions_go profiles rnd pick (i + 1) (next :: rest)
    match profiles next.speaker with
    | some prof =>
      if rnd i < prof.interruption_likelihood then
        s :: ⟨next.speaker, reactions.getD (pick i % reactions.length) [],
              .NEUTRAL, 0.1, 0.3, prof.speaking_rate * 1.2, [], none⟩ :: tail
      else s :: tail
    | none => s :: tail

/-- Embeds `_add_natural_interactions`: formal conversations are returned
unchanged. -/
def add_natural_interactions (profiles : String → Option SpeakerProfile)
    (rnd : Nat → ℚ) (pick : Nat → Nat) (style : ConversationStyle)
    (segments : List ConversationSegment) : List ConversationSegment :=
  if style = .FORMAL then segments
  else add_natural_interactions_go profiles rnd pick 0 segments

/-! Section: `_calculate_interaction_complexity` -/

/-- Python `str.split()`: split on whitespace runs, dropping empty parts. -/
def split_ws_aux : Nat → List Char → List (List Char)
  | 0, _ => []
  | fuel + 1, l =>
    let l2 := l.dropWhile isWs
    if l2.isEmpty then []
    else l2.takeWhile (fun c => !isWs c) ::
      split_ws_aux fuel (l2.dropWhile (fun c => !isWs c))

def split_words (l : List Char) : List (List Char) := split_ws_aux l.length l

/-- The `speaker_changes` counter of `_calculate_interaction_complexity`
(again embedding the Python truthiness of `previous_speaker`). -/
def speaker_changes : Option String → List ConversationSegment → Nat
  | _, [] => 0
  | prev, s :: rest =>
    (match prev with
     | some p => if p ≠ "" ∧ s.speaker ≠ p then 1 else 0
     | none => 0) + speaker_changes (some s.speaker) rest

/-- The `speaker_variety` ratio of `_calculate_interaction_complexity`:
speaker changes divided by segment count. -/
def speaker_variety (segments : List ConversationSegment) : ℚ :=
  (speaker_changes none segments : ℚ) / (segments.length : ℚ)

/-- The `emotion_variety` ratio: distinct emotions used divided by
`len(EmotionType)`. -/
def emotion_variety (segments : List ConversationSegment) : ℚ :=
  ((segments.map (fun s => s.emotion)).dedup.length : ℚ) / (allEmotions.length : ℚ)

/-- The `interaction_density` ratio: questions plus short responses
(fewer than five words) divided by segment count.  A short question is
counted by both summands. -/
def interaction_density (segments : List ConversationSegment) : ℚ :=
  ((segments.countP (fun s => s.text.contains '?') : ℚ) +
    (segments.countP (fun s => (split_words s.text).length < 5) : ℚ)) /
    (segments.length : ℚ)

/-- Embeds `_calculate_interaction_complexity`. -/
def calculate_interaction_complexity (segments : List ConversationSegment) : ℚ :=
  if segments.length < 2 then 0
  else min 1
    ((speaker_variety segments + emotion_variety segments +
      interaction_density segments) / 3)

/-! Section: `_generate_segment_audio` and `_format_text_with_emotion` -/

/-- The `EmotionType.value` strings. -/
def emotion_value : EmotionType → String
  | .NEUTRAL => "neutral"
  | .HAPPY => "happy"
  | .EXCITED => "excited"
  | .SAD => "sad"
  | .ANGRY => "angry"
  | .SURPRISED => "surprised"
  | .CONFUSED => "confused"
  | .CONFIDENT => "confident"
  | .NERVOUS => "nervous"
  | .WHISPERING => "whispering"

/-- Embeds `_format_text_with_emotion`: markdown cleaning plus the emotion string;
the SSML emphasis and prosody branches are commented out in the source, so
the text is otherwise untouched. -/
def format_text_with_emotion (segment : ConversationSegment) : List Char × String :=
  (clean_markdown_for_tts segment.text, emotion_value segment.emotion)

/-- The argument record of one `vibevoice_service.generate_speech` call. -/
structure TTSCall where
  text : List Char
  voice : String
  emotion : String
  output_format : String
  multi_speaker : Bool
  speaker_mapping : Option (List (String × String))
deriving DecidableEq, Repr

/-- Python string comparison (code-point lexicographic less-or-equal),
embedded computably over the character lists. -/
def charListLe : List Char → List Char → Bool
  | [], _ => true
  | _ :: _, [] => false
  | a :: as, b :: bs =>
    if a.toNat < b.toNat then true
    else if b.toNat < a.toNat then false
    else charListLe as bs

/-- Python `sorted` on strings (stable ascending code-point lexicographic),
embedded as insertion sort. -/
def sort_strings (l : List String) : List String :=
  l.insertionSort (fun a b => charListLe a.data b.data = true)

/-- The `f"Speaker {i}"` tag. -/
def speaker_tag (i : Nat) : List Char := "Speaker ".data ++ Nat.toDigits 10 i

/-- The `generate_speech` call that `_generate_segment_audio` issues for a
segment: voice resolution (profile `voice_id`, falling back to the raw
speaker name when no profile exists), then the multi-speaker text prefix
and complete speaker mapping when more than one profile exists, else the
single-speaker call. -/
def generate_segment_audio_call (profiles : List (String × SpeakerProfile))
    (segment : ConversationSegment) : TTSCall :=
  let fe := format_text_with_emotion segment
  let formatted_text := fe.1
  let detected_emotion := fe.2
  let voice_id :=
    match lookup_profile profiles segment.speaker with
    | some p => p.voice_id
    | none => segment.speaker
  if 1 < profiles.length then
    let speaker_names := sort_strings (profiles.map (fun x => x.1))
    let speaker_index :=
      if speaker_names.contains segment.speaker then
        speaker_names.findIdx (fun x => x == segment.speaker)
      else 0
    let multi_speaker_text := speaker_tag speaker_index ++ ": ".data ++ formatted_text
    let complete_speaker_mapping := speaker_names.enum.map
      (fun p => ((⟨speaker_tag p.1⟩ : String),
        ((lookup_profile profiles p.2).map (fun q => q.voice_id)).getD ""))
    ⟨multi_speaker_text, voice_id, detected_emotion, "wav", true,
     some complete_speaker_mapping⟩
  else
    ⟨formatted_text, voice_id, detected_emotion, "wav", false, none⟩

/-! Section: `create_dynamic_conversation` (segment loop, failure check,
metadata).  The enhanced segment list (parser plus annotator output) is
taken as input; the TTS backend and the pause/ambience generator are
abstracted as `synth` and `pause_clip` (returning `none` on the caught
per-segment failures), audio decoding as `mix_duration`. -/

/-- The per-segment loop: a successful segment contributes its audio and
(if generated) its pause clip; a failed segment contributes nothing. -/
def build_audio_segments {α : Type} (synth pause_clip : ConversationSegment → Option α) :
    List ConversationSegment → List α
  | [] => []
  | s :: rest =>
    match synth s with
    | some a => a :: ((pause_clip s).toList ++ build_audio_segments synth pause_clip rest)
    | none => build_audio_segments synth pause_clip rest

/-- The `emotion_distribution[e]` count accumulated by the loop: only segments whose
audio generation succeeded are counted. -/
def emotion_count {α : Type} (synth : ConversationSegment → Option α)
    (segments : List ConversationSegment) (e : EmotionType) : Nat :=
  (segments.filter (fun s => (synth s).isSome && s.emotion == e)).length

/-- The `style_base_gains` dict of `_mix_conversation_audio`. -/
def style_base_gains : ConversationStyle → ℚ
  | .PODCAST => -25
  | .CASUAL => -20
  | .DEBATE => -28
  | .INTERVIEW => -23
  | .NATURAL => -22
  | .FORMAL => -27
  | .DRAMATIC => -18

/-- The background gain computed by `_mix_conversation_audio`: base gain
plus the user-volume adjustment, clamped to `[-50, -5]` dB.  This is the
only place `background_sound_volume` influences the final mix. -/
def mix_final_gain (style : ConversationStyle) (background_sound_volume : ℚ) : ℚ :=
  max (-50) (min (-5) (style_base_gains style + (background_sound_volume - 50) * 0.3))

/-- Embeds `create_dynamic_conversation` from the segment loop onward: collect
audio, raise (`Except.error`) when no audio segment was generated, else
return the mixed clips with the metadata.  `background_sound_volume` is
forwarded, unvalidated, to the audio collaborators (the source performs no
range check on it). -/
def create_dynamic_conversation {α : Type} (synth : ConversationSegment → Option α)
    (pause_clip : ℚ → ConversationSegment → Option α)
    (mix_duration : List α → ℚ) (profiles : List (String × SpeakerProfile))
    (segments : List ConversationSegment) (background_sound_volume : ℚ) :
    Except String (List α × ConversationMetadata) :=
  let audio_segments := build_audio_segments synth (pause_clip background_sound_volume) segments
  if audio_segments.isEmpty then Except.error "No audio segments generated"
  else Except.ok (audio_segments,
    ⟨mix_duration audio_segments,
     profiles.length,
     ((segments.filter (fun s => (synth s).isSome)).map
       (fun s => (split_words s.text).length)).sum,
     fun e => (emotion_count synth segments e : ℚ) / (segments.length : ℚ),
     calculate_interaction_complexity segments⟩)

/-- Sum of the returned emotion distribution over every emotion enum value
(`none` when the build failed). -/
def metadata_dist_sum {α : Type} : Except String (List α × ConversationMetadata) → Option ℚ
  | Except.ok p => some ((allEmotions.map p.2.emotion_distribution).sum)
  | Except.error _ => none

/-- The pause minimums required of every segment. -/
def pause_ok (s : ConversationSegment) : Prop :=
  (0.1 : ℚ) ≤ s.pause_before ∧ (0.2 : ℚ) ≤ s.pause_after

/-- A sample segment used by concrete instantiations. -/
def sampleSeg : ConversationSegment :=
  ⟨"Alice", "Hello there".data, .NEUTRAL, 0.2, 0.8, 1, [], none⟩

/-! Section: Theorems -/

lemma add_natural_interactions_go_pause_bounds
    (profiles : String → Option SpeakerProfile) (rnd : Nat → ℚ) (pick : Nat → Nat) :
    ∀ (segments : List ConversationSegment) (i : Nat),
      (∀ s ∈ segments, pause_ok s) →
      ∀ s ∈ add_natural_interactions_go profiles rnd pick i segments, pause_ok s := by
  intro segments
  induction segments with
  | nil => intro i h s hs; simp [add_natural_interactions_go] at hs
  | cons a tail ih =>
    intro i h s hs
    have ha : pause_ok a := h a (by simp)
    cases tail with
    | nil =>
      simp only [add_natural_interactions_go, List.mem_singleton] at hs
      obtain rfl := hs
      exact ha
    | cons b rest =>
      rw [add_natural_interactions_go] at hs
      have hb : ∀ x ∈ b :: rest, pause_ok x := fun x hx => h x (by simp [hx])
      have htail := ih (i + 1) hb
      cases hp : profiles b.speaker with
      | none =>
        simp only [hp] at hs
        rcases List.mem_cons.mp hs with rfl | hs2
        · exact ha
        · exact htail s hs2
      | some prof =>
        simp only [hp] at hs
        by_cases hr : rnd i < prof.interruption_likelihood
        · rw [if_pos hr] at hs
          rcases List.mem_cons.mp hs with rfl | hs2
          · exact ha
          · rcases List.mem_cons.mp hs2 with rfl | hs3
            · exact ⟨le_refl _, by norm_num⟩
            · exact htail s hs3
        · rw [if_neg hr] at hs
          rcases List.mem_cons.mp hs with rfl | hs2
          · exact ha
          · exact htail s hs2

/-- Claim C3: every pause pair computed by `_calculate_natural_pauses`
satisfies `pauseBefore ≥ 0.1` and `pauseAfter ≥ 0.2`, for every style,
speaker context and jitter outcome, and `_add_natural_interactions`
preserves these minimums (its synthetic interjections are created with
pauses 0.1 and 0.3). -/
theorem C3_pause_minimums :
    (∀ profiles text speaker previous_speaker style j1 j2,
      (0.1 : ℚ) ≤ (calculate_natural_pauses profiles text speaker previous_speaker style j1 j2).1 ∧
      (0.2 : ℚ) ≤ (calculate_natural_pauses profiles text speaker previous_speaker style j1 j2).2) ∧
    (∀ profiles rnd pick style segments,
      (∀ s ∈ segments, pause_ok s) →
      ∀ s ∈ add_natural_interactions profiles rnd pick style segments, pause_ok s) := by
  constructor
  · intro profiles text speaker previous_speaker style j1 j2
    exact ⟨le_max_left _ _, le_max_left _ _⟩
  · intro profiles rnd pick style segments h s hs
    unfold add_natural_interactions at hs
    split at hs
    · exact h s hs
    · exact add_natural_interactions_go_pause_bounds profiles rnd pick segments 0 h s hs

/-- Witness for C3 at concrete inputs. -/
theorem C3_pause_minimums_witness :
    ((0.1 : ℚ) ≤ (calculate_natural_pauses (fun _ => none) "Hi?".data "A" (some "B") .DEBATE 5 (-7)).1 ∧
      (0.2 : ℚ) ≤ (calculate_natural_pauses (fun _ => none) "Hi?".data "A" (some "B") .DEBATE 5 (-7)).2) ∧
    ((∀ s ∈ [sampleSeg], pause_ok s) ∧
      ∀ s ∈ add_natural_interactions (fun _ => none) (fun _ => 0) (fun _ => 0) .CASUAL [sampleSeg],
        pause_ok s) :=
  ⟨C3_pause_minimums.1 (fun _ => none) "Hi?".data "A" (some "B") .DEBATE 5 (-7),
   have h : ∀ s ∈ [sampleSeg], pause_ok s := by
     intro s hs
     simp only [List.mem_singleton] at hs
     subst hs
     constructor <;> norm_num [sampleSeg]
   ⟨h, C3_pause_minimums.2 (fun _ => none) (fun _ => 0) (fun _ => 0) .CASUAL [sampleSeg] h⟩⟩

/-- Claim C7: with natural interactions requested and the `formal` style,
`_add_natural_interactions` returns its input unchanged, so the output
segment count equals the input count and no interjection is added. -/
theorem C7_formal_interactions_identity
    (profiles : String → Option SpeakerProfile) (rnd : Nat → ℚ) (pick : Nat → Nat)
    (segments : List ConversationSegment) :
    add_natural_interactions profiles rnd pick .FORMAL segments = segments ∧
    (add_natural_interactions profiles rnd pick .FORMAL segments).length = segments.length := by
  constructor <;> rfl

/-- Claim C10: the pause table has no `FORMAL` and no `DRAMATIC` row, so
pause calculation for those styles falls back to the `NATURAL` row and
agrees exactly with the natural style on identical inputs and jitter. -/
theorem C10_formal_dramatic_fall_back_to_natural :
    pause_patterns .FORMAL = none ∧ pause_patterns .DRAMATIC = none ∧
    ∀ profiles text speaker previous_speaker j1 j2,
      calculate_natural_pauses profiles text speaker previous_speaker .FORMAL j1 j2 =
        calculate_natural_pauses profiles text speaker previous_speaker .NATURAL j1 j2 ∧
      calculate_natural_pauses profiles text speaker previous_speaker .DRAMATIC j1 j2 =
        calculate_natural_pauses profiles text speaker previous_speaker .NATURAL j1 j2 :=
  ⟨rfl, rfl, fun _ _ _ _ _ _ => ⟨rfl, rfl⟩⟩

lemma build_audio_segments_eq_nil_iff {α : Type}
    (synth pause_clip : ConversationSegment → Option α) :
    ∀ segments, build_audio_segments synth pause_clip segments = [] ↔
      ∀ s ∈ segments, synth s = none := by
  intro segments
  induction segments with
  | nil => simp [build_audio_segments]
  | cons a tail ih =>
    cases hs : synth a with
    | none => simp [build_audio_segments, hs, ih]
    | some x => simp [build_audio_segments, hs]

/-- Claim C6: the conversation build raises exactly when no audio segment
is produced — an empty parsed segment list or synthesis failing on every
segment yields the hard `"No audio segments generated"` error — while one
successful segment suffices for the build to return a result. -/
theorem C6_zero_audio_is_hard_failure {α : Type}
    (synth : ConversationSegment → Option α)
    (pause_clip : ℚ → ConversationSegment → Option α)
    (mix_duration : List α → ℚ) (profiles : List (String × SpeakerProfile))
    (segments : List ConversationSegment) (volume : ℚ) :
    ((∀ s ∈ segments, synth s = none) →
      create_dynamic_conversation synth pause_clip mix_duration profiles segments volume =
        Except.error "No audio segments generated") ∧
    ((∃ s ∈ segments, (synth s).isSome) →
      ∃ out, create_dynamic_conversation synth pause_clip mix_duration profiles segments volume =
        Except.ok out) := by
  constructor
  · intro h
    have hnil : build_audio_segments synth (pause_clip volume) segments = [] :=
      (build_audio_segments_eq_nil_iff _ _ _).mpr h
    unfold create_dynamic_conversation
    rw [if_pos (by rw [List.isEmpty_iff]; exact hnil)]
  · intro hex
    have hne : ¬ build_audio_segments synth (pause_clip volume) segments = [] := by
      intro hnil
      obtain ⟨s, hmem, hsome⟩ := hex
      have := (build_audio_segments_eq_nil_iff _ _ _).mp hnil s hmem
      rw [this] at hsome
      exact Bool.noConfusion hsome
    unfold create_dynamic_conversation
    rw [if_neg (by rw [List.isEmpty_iff]; exact hne)]
    exact ⟨_, rfl⟩

/-- Witness for C6: a one-segment build with all synthesis failing raises,
and with successful synthesis returns a result. -/
theorem C6_zero_audio_is_hard_failure_witness :
    (create_dynamic_conversation (fun _ => (none : Option Nat)) (fun _ _ => none)
        (fun _ => 0) [] [sampleSeg] 50 = Except.error "No audio segments generated") ∧
    (∃ out, create_dynamic_conversation (fun _ => (some 0 : Option Nat)) (fun _ _ => none)
        (fun _ => 0) [] [sampleSeg] 50 = Except.ok out) :=
  ⟨(C6_zero_audio_is_hard_failure _ _ _ _ _ _).1 (fun _ _ => rfl),
   (C6_zero_audio_is_hard_failure _ _ _ _ _ _).2 ⟨sampleSeg, by simp, rfl⟩⟩

/-- Claim C9 (code check): `create_dynamic_conversation` performs no range
validation of `background_sound_volume`: with the out-of-range values 0 and
200 a one-segment build still succeeds — no error is raised — and the value
is forwarded to the mixing stage, which merely clamps the resulting gain
into `[-50, -5]` dB. -/
theorem C9_background_volume_not_validated :
    (∃ out, create_dynamic_conversation (fun _ => (some 0 : Option Nat)) (fun _ _ => none)
        (fun _ => 0) [] [sampleSeg] 0 = Except.ok out) ∧
    (∃ out, create_dynamic_conversation (fun _ => (some 0 : Option Nat)) (fun _ _ => none)
        (fun _ => 0) [] [sampleSeg] 200 = Except.ok out) ∧
    mix_final_gain .PODCAST 0 = -40 ∧ mix_final_gain .PODCAST 200 = -5 := by
  refine ⟨⟨_, rfl⟩, ⟨_, rfl⟩, ?_, ?_⟩ <;> norm_num [mix_final_gain, style_base_gains]

lemma sum_map_add_nat {γ : Type} (l : List γ) (f g : γ → Nat) :
    (l.map (fun x => f x + g x)).sum = (l.map f).sum + (l.map g).sum := by
  induction l with
  | nil => simp
  | cons a l ih => simp only [List.map_cons, List.sum_cons, ih]; omega

lemma emotion_count_cons {α : Type} (synth : ConversationSegment → Option α)
    (s : ConversationSegment) (rest : List ConversationSegment) (e : EmotionType) :
    emotion_count synth (s :: rest) e =
      (if (synth s).isSome && s.emotion == e then 1 else 0) + emotion_count synth rest e := by
  simp only [emotion_count, List.filter_cons]
  split
  · simp [Nat.add_comm]
  · simp

lemma sum_indicator_allEmotions (e0 : EmotionType) :
    (allEmotions.map (fun e => if e0 == e then (1 : Nat) else 0)).sum = 1 := by
  cases e0 <;> decide

lemma emotion_count_total {α : Type} (synth : ConversationSegment → Option α) :
    ∀ segments : List ConversationSegment,
      (∀ s ∈ segments, (synth s).isSome = true) →
      (allEmotions.map (fun e => emotion_count synth segments e)).sum = segments.length := by
  intro segments
  induction segments with
  | nil => intro _; simp [emotion_count, allEmotions]
  | cons s rest ih =>
    intro h
    have hok : (synth s).isSome = true := h s (by simp)
    have hrest := ih (fun x hx => h x (by simp [hx]))
    have hmap : allEmotions.map (fun e => emotion_count synth (s :: rest) e) =
        allEmotions.map (fun e => (if s.emotion == e then 1 else 0) + emotion_count synth rest e) := by
      simp only [emotion_count_cons, hok, Bool.true_and]
    rw [hmap, sum_map_add_nat, sum_indicator_allEmotions, hrest]
    simp only [List.length_cons]
    omega

lemma sum_map_cast_div {γ : Type} (f : γ → Nat) (n : ℚ) :
    ∀ l : List γ, (l.map (fun x => (f x : ℚ) / n)).sum = ((l.map f).sum : ℚ) / n := by
  intro l
  induction l with
  | nil => simp
  | cons a l ih =>
    simp only [List.map_cons, List.sum_cons, ih]
    push_cast
    rw [add_div]

/-- Claim C1 (amended): the emotion distribution returned by
`create_dynamic_conversation` counts only segments whose audio generation
succeeded, divided by the total segment count; hence over a non-empty
segment list it sums to 1 over all emotion enum values provided every
segment's synthesis succeeds (and to successes/total otherwise — see the
counterexample). -/
theorem C1_emotion_distribution_sums_to_one {α : Type}
    (synth : ConversationSegment → Option α)
    (pause_clip : ℚ → ConversationSegment → Option α)
    (mix_duration : List α → ℚ) (profiles : List (String × SpeakerProfile))
    (segments : List ConversationSegment) (volume : ℚ)
    (hne : segments ≠ [])
    (hall : ∀ s ∈ segments, (synth s).isSome = true) :
    metadata_dist_sum
      (create_dynamic_conversation synth pause_clip mix_duration profiles segments volume) =
      some 1 := by
  have hnil : ¬ build_audio_segments synth (pause_clip volume) segments = [] := by
    intro h0
    cases segments with
    | nil => exact hne rfl
    | cons a t =>
      have := (build_audio_segments_eq_nil_iff _ _ _).mp h0 a (by simp)
      have ha := hall a (by simp)
      rw [this] at ha
      exact Bool.noConfusion ha
  unfold create_dynamic_conversation
  rw [if_neg (by rw [List.isEmpty_iff]; exact hnil)]
  simp only [metadata_dist_sum]
  congr 1
  have hlen : ((segments.length : ℚ)) ≠ 0 := by
    have : segments.length ≠ 0 := fun h0 => hne (List.length_eq_zero.mp h0)
    exact_mod_cast Nat.cast_ne_zero.mpr this
  rw [sum_map_cast_div (fun e => emotion_count synth segments e) (segments.length : ℚ) allEmotions]
  rw [emotion_count_total synth segments hall]
  exact div_self hlen

/-- Witness for C1 (amended) at a concrete one-segment build. -/
theorem C1_emotion_distribution_sums_to_one_witness :
    metadata_dist_sum (create_dynamic_conversation (fun _ => (some 0 : Option Nat))
      (fun _ _ => none) (fun _ => 0) [] [sampleSeg] 50) = some 1 :=
  C1_emotion_distribution_sums_to_one _ _ _ _ _ _ (by simp) (fun _ _ => rfl)

/-- The synthesis outcome of the C1 counterexample: only neutral segments
synthesize successfully. -/
def c1Synth : ConversationSegment → Option Nat :=
  fun s => if s.emotion == EmotionType.NEUTRAL then some 0 else none

/-- The two segments of the C1 counterexample. -/
def c1Segs : List ConversationSegment :=
  [⟨"A", "Hi".data, .NEUTRAL, 0.2, 0.8, 1, [], none⟩,
   ⟨"B", "Yo".data, .HAPPY, 0.2, 0.8, 1, [], none⟩]

/-- Claim C1 counterexample: a two-segment build in which one segment's
synthesis fails (a caught per-segment failure, which does not abort the
build) returns an emotion distribution summing to 1/2, not 1. -/
theorem C1_counterexample :
    metadata_dist_sum (create_dynamic_conversation c1Synth
        (fun _ _ => none) (fun _ => 0) [] c1Segs 50) = some (1 / 2) ∧
    (1 / 2 : ℚ) ≠ 1 := by
  constructor
  · have hnil : ¬ build_audio_segments c1Synth
        ((fun (_ : ℚ) (_ : ConversationSegment) => (none : Option Nat)) 50) c1Segs = [] := by
      decide
    unfold create_dynamic_conversation
    rw [if_neg (by rw [List.isEmpty_iff]; exact hnil)]
    simp only [metadata_dist_sum]
    congr 1
    rw [sum_map_cast_div (fun e => emotion_count c1Synth c1Segs e) (c1Segs.length : ℚ) allEmotions]
    have hsum : (allEmotions.map (fun e => emotion_count c1Synth c1Segs e)).sum = 1 := by decide
    rw [hsum]
    norm_num [c1Segs]
  · norm_num

lemma speaker_changes_le :
    ∀ (segments : List ConversationSegment) (prev : Option String),
      speaker_changes prev segments ≤ segments.length := by
  intro segments
  induction segments with
  | nil => intro prev; simp [speaker_changes]
  | cons s rest ih =>
    intro prev
    rw [speaker_changes.eq_def]
    dsimp only
    have h1 : (match prev with
      | some p => if p ≠ "" ∧ s.speaker ≠ p then 1 else 0
      | none => 0) ≤ 1 := by
      cases prev with
      | none => simp
      | some p => dsimp only; split <;> simp
    have h2 := ih (some s.speaker)
    simp only [List.length_cons]
    omega

lemma emotions_used_le (segments : List ConversationSegment) :
    (segments.map (fun s => s.emotion)).dedup.length ≤ allEmotions.length := by
  have h1 : (segments.map (fun s => s.emotion)).dedup.Nodup := List.nodup_dedup _
  have h2 := List.Nodup.length_le_card h1
  have h3 : Fintype.card EmotionType = 10 := by decide
  have h4 : allEmotions.length = 10 := by decide
  omega

/-- Claim C8 (amended): for segment lists of length at least 2,
`interactionComplexity` equals the average of the three components clamped
to at most 1; the speaker-change and emotion-variety components lie in
`[0, 1]`, but the question/short-utterance density lies only in `[0, 2]`
(a short question is counted by both summands — see the counterexample). -/
theorem C8_interaction_complexity_formula (segments : List ConversationSegment)
    (h : 2 ≤ segments.length) :
    calculate_interaction_complexity segments =
      min 1 ((speaker_variety segments + emotion_variety segments +
        interaction_density segments) / 3) ∧
    0 ≤ speaker_variety segments ∧ speaker_variety segments ≤ 1 ∧
    0 ≤ emotion_variety segments ∧ emotion_variety segments ≤ 1 ∧
    0 ≤ interaction_density segments ∧ interaction_density segments ≤ 2 ∧
    calculate_interaction_complexity segments ≤ 1 := by
  have hpos : (0 : ℚ) < (segments.length : ℚ) := by
    have : 0 < segments.length := by omega
    exact_mod_cast this
  have hform : calculate_interaction_complexity segments =
      min 1 ((speaker_variety segments + emotion_variety segments +
        interaction_density segments) / 3) := by
    rw [calculate_interaction_complexity, if_neg (by omega)]
  refine ⟨hform, ?_, ?_, ?_, ?_, ?_, ?_, ?_⟩
  · exact div_nonneg (Nat.cast_nonneg _) (le_of_lt hpos)
  · rw [speaker_variety, div_le_one hpos]
    exact_mod_cast speaker_changes_le segments none
  · exact div_nonneg (Nat.cast_nonneg _) (by norm_num [allEmotions])
  · rw [emotion_variety, div_le_one (by norm_num [allEmotions])]
    exact_mod_cast emotions_used_le segments
  · exact div_nonneg (by positivity) (le_of_lt hpos)
  · rw [interaction_density, div_le_iff₀ hpos]
    have h1 := List.countP_le_length (fun s => s.text.contains '?') (l := segments)
    have h2 := List.countP_le_length
      (fun s => decide ((split_words s.text).length < 5)) (l := segments)
    have c1 : ((segments.countP (fun s => s.text.contains '?')) : ℚ) ≤ segments.length := by
      exact_mod_cast h1
    have c2 : ((segments.countP (fun s => decide ((split_words s.text).length < 5))) : ℚ) ≤
        segments.length := by exact_mod_cast h2
    calc ((segments.countP (fun s => s.text.contains '?')) : ℚ) +
        ((segments.countP (fun s => decide ((split_words s.text).length < 5))) : ℚ) ≤
        (segments.length : ℚ) + (segments.length : ℚ) := add_le_add c1 c2
      _ = 2 * (segments.length : ℚ) := by ring
  · rw [hform]
    exact min_le_left _ _

/-- The short-question segment of the C8 counterexample. -/
def shortQ : ConversationSegment := ⟨"A", "Hi?".data, .NEUTRAL, 0.2, 0.8, 1, [], none⟩

/-- Claim C8 counterexample: two one-word questions give an
interaction-density component equal to 2, which is not in `[0, 1]` as the
claim asserts; the overall score is still the clamped average, 7/10. -/
theorem C8_counterexample :
    interaction_density [shortQ, shortQ] = 2 ∧
    ¬ interaction_density [shortQ, shortQ] ≤ 1 ∧
    calculate_interaction_complexity [shortQ, shortQ] = 7 / 10 := by
  have hq : ([shortQ, shortQ].countP (fun s => s.text.contains '?')) = 2 := by decide
  have hs : ([shortQ, shortQ].countP
      (fun s => decide ((split_words s.text).length < 5))) = 2 := by decide
  have hc : speaker_changes none [shortQ, shortQ] = 0 := by decide
  have hd : (([shortQ, shortQ].map (fun s => s.emotion)).dedup.length) = 1 := by decide
  have hdens : interaction_density [shortQ, shortQ] = 2 := by
    rw [interaction_density, hq, hs]
    norm_num
  refine ⟨hdens, by rw [hdens]; norm_num, ?_⟩
  rw [calculate_interaction_complexity, if_neg (by norm_num), hdens,
    speaker_variety, hc, emotion_variety, hd]
  norm_num [allEmotions]

lemma charListLe_total : ∀ as bs, charListLe as bs = true ∨ charListLe bs as = true := by
  intro as
  induction as with
  | nil => intro bs; left; rfl
  | cons a as ih =>
    intro bs
    cases bs with
    | nil => right; rfl
    | cons b bs =>
      rcases Nat.lt_trichotomy a.toNat b.toNat with h | h | h
      · left; simp [charListLe, h]
      · have h1 : ¬ a.toNat < b.toNat := by omega
        have h2 : ¬ b.toNat < a.toNat := by omega
        rcases ih bs with hle | hle
        · left; simp [charListLe, h1, h2, hle]
        · right; simp [charListLe, h1, h2, hle]
      · right; simp [charListLe, h]

lemma charListLe_trans :
    ∀ as bs cs, charListLe as bs = true → charListLe bs cs = true →
      charListLe as cs = true := by
  intro as
  induction as with
  | nil => intro bs cs _ _; rfl
  | cons a as ih =>
    intro bs cs h1 h2
    cases bs with
    | nil => simp [charListLe] at h1
    | cons b bs =>
      cases cs with
      | nil => simp [charListLe] at h2
      | cons c cs =>
        by_cases hab : a.toNat < b.toNat <;> by_cases hbc : b.toNat < c.toNat
        · simp [charListLe, show a.toNat < c.toNat by omega]
        · by_cases hcb : c.toNat < b.toNat
          · simp [charListLe, hbc, hcb] at h2
          · simp [charListLe, show a.toNat < c.toNat by omega]
        · by_cases hba : b.toNat < a.toNat
          · simp [charListLe, hab, hba] at h1
          · simp [charListLe, show a.toNat < c.toNat by omega]
        · by_cases hba : b.toNat < a.toNat
          · simp [charListLe, hab, hba] at h1
          · by_cases hcb : c.toNat < b.toNat
            · simp [charListLe, hbc, hcb] at h2
            · have hg1 : ¬ a.toNat < c.toNat := by omega
              have hg2 : ¬ c.toNat < a.toNat := by omega
              simp only [charListLe, hab, hba, if_neg hab, if_neg hba] at h1
              simp only [charListLe, hbc, hcb, if_neg hbc, if_neg hcb] at h2
              simp only [charListLe, if_neg hg1, if_neg hg2]
              exact ih bs cs h1 h2

instance : IsTotal String (fun a b => charListLe a.data b.data = true) :=
  ⟨fun a b => charListLe_total a.data b.data⟩

instance : IsTrans String (fun a b => charListLe a.data b.data = true) :=
  ⟨fun a b c => charListLe_trans a.data b.data c.data⟩

lemma fallback_getD_mem (k : Nat) :
    fallback_voices.getD (k % fallback_voices.length) "" ∈ fallback_voices := by
  have hlt : k % fallback_voices.length < fallback_voices.length :=
    Nat.mod_lt _ (by decide)
  have hl : fallback_voices.length = 3 := rfl
  have h3 : k % fallback_voices.length = 0 ∨ k % fallback_voices.length = 1 ∨
      k % fallback_voices.length = 2 := by omega
  rcases h3 with h | h | h <;> rw [h] <;> decide

lemma init_profiles_voice_resolved (available : List String) (rate ilike ppref : Nat → ℚ) :
    ∀ (mapping : List (String × String)) (i fbIdx : Nat) (name : String) (p : SpeakerProfile),
      (init_speaker_profiles_go available rate ilike ppref i fbIdx mapping).lookup name = some p →
      available.contains p.voice_id = true ∨ p.voice_id ∈ fallback_voices := by
  intro mapping
  induction mapping with
  | nil => intro i fb name p h; simp [init_speaker_profiles_go, List.lookup] at h
  | cons entry rest ih =>
    intro i fb name p h
    obtain ⟨sname, req⟩ := entry
    simp only [init_speaker_profiles_go] at h
    cases hbeq : name == sname with
    | true =>
      simp only [List.lookup, hbeq] at h
      obtain rfl := Option.some.inj h
      dsimp only
      by_cases hhit : available.contains req = true
      · rw [if_pos hhit]; exact Or.inl hhit
      · rw [if_neg hhit]; exact Or.inr (fallback_getD_mem fb)
    | false =>
      simp only [List.lookup, hbeq] at h
      exact ih (i + 1) _ name p h

/-- Claim C4 (amended): when the segment's speaker has a profile (it
occurred in the speaker mapping), the voice identity passed to the TTS
backend is that profile's resolved `voiceId` — a member of the backend's
voice catalog or one of the known-good fallback default voices — but when
no profile exists for the speaker, the code passes the raw speaker name
(see the counterexample). -/
theorem C4_voice_resolution (available : List String) (rate ilike ppref : Nat → ℚ)
    (speaker_mapping : List (String × String)) (segment : ConversationSegment)
    (p : SpeakerProfile)
    (h : lookup_profile (init_speaker_profiles available rate ilike ppref speaker_mapping)
      segment.speaker = some p) :
    (generate_segment_audio_call (init_speaker_profiles available rate ilike ppref speaker_mapping)
      segment).voice = p.voice_id ∧
    (available.contains p.voice_id = true ∨ p.voice_id ∈ fallback_voices) := by
  constructor
  · simp only [generate_segment_audio_call, h]
    split <;> rfl
  · exact init_profiles_voice_resolved available rate ilike ppref speaker_mapping 0 0
      segment.speaker p h

/-- Witness for C4 at a concrete mapping whose requested voice is missing
from the catalog (exercising the fallback rotation). -/
theorem C4_voice_resolution_witness :
    (generate_segment_audio_call
        (init_speaker_profiles ["vibevoice-alice"] (fun _ => 1) (fun _ => 0) (fun _ => 1)
          [("Bob", "missing-voice")])
        ⟨"Bob", "Hi".data, .NEUTRAL, 0.2, 0.8, 1, [], none⟩).voice =
      (⟨"Bob", "vibevoice-alice", "energetic", 1, .NEUTRAL, 0, 1⟩ : SpeakerProfile).voice_id ∧
    (["vibevoice-alice"].contains
        (⟨"Bob", "vibevoice-alice", "energetic", 1, .NEUTRAL, 0, 1⟩ : SpeakerProfile).voice_id =
        true ∨
      (⟨"Bob", "vibevoice-alice", "energetic", 1, .NEUTRAL, 0, 1⟩ : SpeakerProfile).voice_id ∈
        fallback_voices) :=
  C4_voice_resolution _ _ _ _ _ _ _ rfl

/-- Claim C4 counterexample: a segment whose speaker is absent from the
speaker mapping is synthesized with the raw speaker name as the voice
identity — it is neither a catalog voice nor a fallback voice. -/
theorem C4_counterexample :
    (generate_segment_audio_call
        (init_speaker_profiles ["vibevoice-alice"] (fun _ => 1) (fun _ => 0) (fun _ => 1)
          [("Alice", "vibevoice-alice")])
        ⟨"Bob", "Hi".data, .NEUTRAL, 0.2, 0.8, 1, [], none⟩).voice = "Bob" ∧
    ("Bob" : String) ∉ ["vibevoice-alice"] ∧ ("Bob" : String) ∉ fallback_voices :=
  ⟨rfl, by decide, by decide⟩

/-- Claim C5: with more than one speaker profile, the text sent to the TTS
backend is prefixed `"Speaker <i>: "`, where `<i>` is the zero-based index
of the segment's speaker in the sorted list of all speaker names (a sorted
permutation of the profile names, and the entry at index `<i>` is the
segment's speaker), the call is marked multi-speaker, and a complete
`"Speaker <i>" → voiceId` map over all sorted speaker names is passed;
with exactly one profile, the call carries the cleaned text with no such
prefix, is not multi-speaker, and passes no speaker mapping. -/
theorem C5_speaker_index_tagging (profiles : List (String × SpeakerProfile))
    (segment : ConversationSegment) :
    (List.Sorted (fun a b => charListLe a.data b.data = true)
      (sort_strings (profiles.map (fun x => x.1))) ∧
      (sort_strings (profiles.map (fun x => x.1))).Perm (profiles.map (fun x => x.1))) ∧
    (1 < profiles.length →
      (sort_strings (profiles.map (fun x => x.1))).contains segment.speaker = true →
      (generate_segment_audio_call profiles segment).text =
        speaker_tag ((sort_strings (profiles.map (fun x => x.1))).findIdx
          (fun x => x == segment.speaker)) ++ ": ".data ++
          clean_markdown_for_tts segment.text ∧
      (sort_strings (profiles.map (fun x => x.1)))[
          (sort_strings (profiles.map (fun x => x.1))).findIdx
            (fun x => x == segment.speaker)]? = some segment.speaker ∧
      (generate_segment_audio_call profiles segment).multi_speaker = true ∧
      (generate_segment_audio_call profiles segment).speaker_mapping =
        some ((sort_strings (profiles.map (fun x => x.1))).enum.map
          (fun q => ((⟨speaker_tag q.1⟩ : String),
            ((lookup_profile profiles q.2).map (fun r => r.voice_id)).getD "")))) ∧
    (profiles.length = 1 →
      (generate_segment_audio_call profiles segment).text =
        clean_markdown_for_tts segment.text ∧
      (generate_segment_audio_call profiles segment).multi_speaker = false ∧
      (generate_segment_audio_call profiles segment).speaker_mapping = none) := by
  refine ⟨⟨?_, ?_⟩, ?_, ?_⟩
  · exact List.sorted_insertionSort _ _
  · exact List.perm_insertionSort _ _
  · intro h1 h2
    have hmem : segment.speaker ∈ sort_strings (profiles.map (fun x => x.1)) := by
      simpa using h2
    refine ⟨?_, ?_, ?_, ?_⟩
    · simp [generate_segment_audio_call, h1, h2, hmem, format_text_with_emotion]
    ·
      have hex : ∃ x ∈ sort_strings (profiles.map (fun x => x.1)),
          (x == segment.speaker) = true := ⟨segment.speaker, hmem, by simp⟩
      have hlt := List.findIdx_lt_length_of_exists hex
      rw [List.getElem?_eq_getElem hlt]
      have hp := @List.findIdx_getElem _ (fun x => x == segment.speaker) _ hlt
      simpa using hp
    · simp [generate_segment_audio_call, h1, h2]
    · simp [generate_segment_audio_call, h1, h2]
  · intro h1
    have hnot : ¬ 1 < profiles.length := by omega
    refine ⟨?_, ?_, ?_⟩ <;>
      simp [generate_segment_audio_call, hnot, format_text_with_emotion]

/-- The profiles of the C5 witness. -/
def c5Profiles : List (String × SpeakerProfile) :=
  init_speaker_profiles ["va", "vb"] (fun _ => 1) (fun _ => 0) (fun _ => 1)
    [("Bob", "vb"), ("Alice", "va")]

/-- The segment of the C5 witness. -/
def c5Seg : ConversationSegment := ⟨"Bob", "Hi".data, .NEUTRAL, 0.2, 0.8, 1, [], none⟩

/-- Witness for C5 at a concrete two-speaker conversation. -/
theorem C5_speaker_index_tagging_witness :
    (generate_segment_audio_call c5Profiles c5Seg).text =
      speaker_tag ((sort_strings (c5Profiles.map (fun x => x.1))).findIdx
        (fun x => x == c5Seg.speaker)) ++ ": ".data ++
        clean_markdown_for_tts c5Seg.text ∧
    (sort_strings (c5Profiles.map (fun x => x.1)))[
        (sort_strings (c5Profiles.map (fun x => x.1))).findIdx
          (fun x => x == c5Seg.speaker)]? = some c5Seg.speaker ∧
    (generate_segment_audio_call c5Profiles c5Seg).multi_speaker = true ∧
    (generate_segment_audio_call c5Profiles c5Seg).speaker_mapping =
      some ((sort_strings (c5Profiles.map (fun x => x.1))).enum.map
        (fun q => ((⟨speaker_tag q.1⟩ : String),
          ((lookup_profile c5Profiles q.2).map (fun r => r.voice_id)).getD ""))) :=
  (C5_speaker_index_tagging c5Profiles c5Seg).2.1 (by decide) (by decide)

/-- Witness for C8 (amended) at the concrete two-segment list. -/
theorem C8_interaction_complexity_formula_witness :
    calculate_interaction_complexity [shortQ, shortQ] =
      min 1 ((speaker_variety [shortQ, shortQ] + emotion_variety [shortQ, shortQ] +
        interaction_density [shortQ, shortQ]) / 3) ∧
    0 ≤ speaker_variety [shortQ, shortQ] ∧ speaker_variety [shortQ, shortQ] ≤ 1 ∧
    0 ≤ emotion_variety [shortQ, shortQ] ∧ emotion_variety [shortQ, shortQ] ≤ 1 ∧
    0 ≤ interaction_density [shortQ, shortQ] ∧ interaction_density [shortQ, shortQ] ≤ 2 ∧
    calculate_interaction_complexity [shortQ, shortQ] ≤ 1 :=
  C8_interaction_complexity_formula [shortQ, shortQ] (by decide)

/-! Section: Plain text and the markdown-cleaning fixpoint (C2) -/

/-- Plain-text characters: ASCII letters and the space. -/
def isPlainChar (c : Char) : Bool := c.isAlpha || c == ' '

/-- No two adjacent spaces. -/
def noDoubleSpace : List Char → Bool
  | c1 :: c2 :: rest => !(c1 == ' ' && c2 == ' ') && noDoubleSpace (c2 :: rest)
  | _ => true

/-- Already-clean plain text: letters and single interior spaces, no
leading or trailing space. -/
def isPlain (l : List Char) : Bool :=
  l.all isPlainChar && noDoubleSpace l &&
    !(l.head? == some ' ') && !(l.getLast? == some ' ')

lemma plain_char_cases {c : Char} (hp : isPlainChar c = true) :
    c.isAlpha = true ∨ c = ' ' := by
  simpa [isPlainChar] using hp

lemma ws_not_alpha {c : Char} (h : isWs c = true) : c.isAlpha = false := by
  simp only [isWs, Bool.or_eq_true, beq_iff_eq] at h
  rcases h with ((((rfl | rfl) | rfl) | rfl) | rfl) | rfl <;> rfl

lemma plain_not_ws {c : Char} (hp : isPlainChar c = true) (hs : ¬ c = ' ') :
    isWs c = false := by
  rcases plain_char_cases hp with h | rfl
  · cases hw : isWs c
    · rfl
    · rw [ws_not_alpha hw] at h; exact Bool.noConfusion h
  · exact absurd rfl hs

lemma special_beq_plain_false {c d : Char} (hc : isPlainChar c = true)
    (hd : isPlainChar d = false) : (d == c) = false := by
  cases h : d == c
  · rfl
  · exfalso
    have heq : d = c := by simpa using h
    rw [heq, hc] at hd
    exact Bool.noConfusion hd

lemma plain_beq_special_false {c d : Char} (hc : isPlainChar c = true)
    (hd : isPlainChar d = false) : (c == d) = false := by
  cases h : c == d
  · rfl
  · exfalso
    have heq : c = d := by simpa using h
    rw [← heq, hc] at hd
    exact Bool.noConfusion hd

lemma noDoubleSpace_tail {c : Char} {rest : List Char}
    (h : noDoubleSpace (c :: rest) = true) : noDoubleSpace rest = true := by
  cases rest with
  | nil => rfl
  | cons d r2 =>
    simp only [noDoubleSpace, Bool.and_eq_true] at h
    exact h.2

lemma subWrapAux_plain_id (opn cls : List Char) (forb bad : Char) (ki ae : Bool)
    (hhead : opn.head? = some bad) (hbad : isPlainChar bad = false) :
    ∀ (fuel : Nat) (l : List Char), (∀ c ∈ l, isPlainChar c = true) →
      subWrapAux opn cls forb ki ae fuel l = l := by
  intro fuel
  induction fuel with
  | zero => intro l _; rfl
  | succ fuel ih =>
    intro l hall
    cases l with
    | nil => rfl
    | cons c rest =>
      have hc : isPlainChar c = true := hall c (by simp)
      have hpref : opn.isPrefixOf (c :: rest) = false := by
        cases opn with
        | nil => exact absurd hhead (by simp)
        | cons o os =>
          have ho : o = bad := by simpa using hhead
          subst ho
          simp [List.isPrefixOf, special_beq_plain_false hc hbad]
      rw [subWrapAux]
      simp only [hpref, Bool.false_eq_true, if_false]
      rw [ih rest (fun x hx => hall x (List.mem_cons_of_mem _ hx))]

lemma subBold_plain_id (l : List Char) (hall : ∀ c ∈ l, isPlainChar c = true) :
    subBold l = l :=
  subWrapAux_plain_id ['*', '*'] ['*', '*'] '*' '*' true false rfl (by decide) l.length l hall

lemma subItalic_plain_id (l : List Char) (hall : ∀ c ∈ l, isPlainChar c = true) :
    subItalic l = l :=
  subWrapAux_plain_id ['*'] ['*'] '*' '*' true false rfl (by decide) l.length l hall

lemma subDunder_plain_id (l : List Char) (hall : ∀ c ∈ l, isPlainChar c = true) :
    subDunder l = l :=
  subWrapAux_plain_id ['_', '_'] ['_', '_'] '_' '_' true false rfl (by decide) l.length l hall

lemma subUnder_plain_id (l : List Char) (hall : ∀ c ∈ l, isPlainChar c = true) :
    subUnder l = l :=
  subWrapAux_plain_id ['_'] ['_'] '_' '_' true false rfl (by decide) l.length l hall

lemma subCodeFence_plain_id (l : List Char) (hall : ∀ c ∈ l, isPlainChar c = true) :
    subCodeFence l = l :=
  subWrapAux_plain_id [btick, btick, btick] [btick, btick, btick] btick btick false true
    rfl (by decide) l.length l hall

lemma subInlineCode_plain_id (l : List Char) (hall : ∀ c ∈ l, isPlainChar c = true) :
    subInlineCode l = l :=
  subWrapAux_plain_id [btick] [btick] btick btick true false rfl (by decide) l.length l hall

lemma subHtml_plain_id (l : List Char) (hall : ∀ c ∈ l, isPlainChar c = true) :
    subHtml l = l :=
  subWrapAux_plain_id ['<'] ['>'] '>' '<' false false rfl (by decide) l.length l hall

lemma subLinksAux_plain_id :
    ∀ (fuel : Nat) (l : List Char), (∀ c ∈ l, isPlainChar c = true) →
      subLinksAux fuel l = l := by
  intro fuel
  induction fuel with
  | zero => intro l _; rfl
  | succ fuel ih =>
    intro l hall
    cases l with
    | nil => rfl
    | cons c rest =>
      have hc : isPlainChar c = true := hall c (by simp)
      have h1 : (c == '[') = false := plain_beq_special_false hc (by decide)
      rw [subLinksAux]
      simp only [h1, Bool.false_eq_true, if_false]
      rw [ih rest (fun x hx => hall x (List.mem_cons_of_mem _ hx))]

lemma subLinks_plain_id (l : List Char) (hall : ∀ c ∈ l, isPlainChar c = true) :
    subLinks l = l := subLinksAux_plain_id l.length l hall

lemma subHeadersAux_plain_id :
    ∀ (fuel : Nat) (b : Bool) (l : List Char), (∀ c ∈ l, isPlainChar c = true) →
      subHeadersAux fuel b l = l := by
  intro fuel
  induction fuel with
  | zero => intro b l _; rfl
  | succ fuel ih =>
    intro b l hall
    cases l with
    | nil => rfl
    | cons c rest =>
      have hc : isPlainChar c = true := hall c (by simp)
      have hrest := ih (c == '\n') rest (fun x hx => hall x (List.mem_cons_of_mem _ hx))
      have h1 : (c == '#') = false := plain_beq_special_false hc (by decide)
      cases b with
      | false =>
        rw [subHeadersAux]
        simp only [Bool.false_eq_true, if_false]
        rw [hrest]
      | true =>
        rw [subHeadersAux]
        simp only [List.takeWhile_cons, h1, Bool.false_eq_true, if_false,
          List.isEmpty_nil, Bool.not_true, Bool.false_and, Bool.and_false, if_true]
        rw [hrest]

lemma subHeaders_plain_id (l : List Char) (hall : ∀ c ∈ l, isPlainChar c = true) :
    subHeaders l = l := subHeadersAux_plain_id l.length true l hall

lemma subBulletsAux_plain_id :
    ∀ (fuel : Nat) (b : Bool) (l : List Char), (∀ c ∈ l, isPlainChar c = true) →
      subBulletsAux fuel b l = l := by
  intro fuel
  induction fuel with
  | zero => intro b l _; rfl
  | succ fuel ih =>
    intro b l hall
    cases l with
    | nil => rfl
    | cons c rest =>
      have hrest := ih (c == '\n') rest (fun x hx => hall x (List.mem_cons_of_mem _ hx))
      cases b with
      | false =>
        rw [subBulletsAux]
        simp only [Bool.false_eq_true, if_false]
        rw [hrest]
      | true =>
        rw [subBulletsAux]
        rcases ht : (c :: rest).dropWhile isWs with _ | ⟨m, t2⟩
        · simp only [ht, if_true]
          rw [hrest]
        · have hmem : m ∈ (c :: rest).dropWhile isWs := by
            rw [ht]; exact List.mem_cons_self m t2
          have hm : isPlainChar m = true :=
            hall m ((List.dropWhile_sublist isWs).subset hmem)
          have hm1 : (m == '-') = false := plain_beq_special_false hm (by decide)
          have hm2 : (m == '*') = false := plain_beq_special_false hm (by decide)
          have hm3 : (m == '+') = false := plain_beq_special_false hm (by decide)
          simp only [ht, hm1, hm2, hm3, Bool.or_self, Bool.false_or,
            Bool.false_and, Bool.false_eq_true, if_false, if_true]
          rw [hrest]

lemma subBullets_plain_id (l : List Char) (hall : ∀ c ∈ l, isPlainChar c = true) :
    subBullets l = l := subBulletsAux_plain_id l.length true l hall

lemma subNumberedAux_plain_id :
    ∀ (fuel : Nat) (b : Bool) (l : List Char), (∀ c ∈ l, isPlainChar c = true) →
      subNumberedAux fuel b l = l := by
  intro fuel
  induction fuel with
  | zero => intro b l _; rfl
  | succ fuel ih =>
    intro b l hall
    cases l with
    | nil => rfl
    | cons c rest =>
      have hrest := ih (c == '\n') rest (fun x hx => hall x (List.mem_cons_of_mem _ hx))
      cases b with
      | false =>
        rw [subNumberedAux]
        simp only [Bool.false_eq_true, if_false]
        rw [hrest]
      | true =>
        rw [subNumberedAux]
        rcases ht2 : ((c :: rest).dropWhile isWs).dropWhile Char.isDigit with _ | ⟨m, t3⟩
        · simp only [ht2, List.headD_nil, show ((' ' : Char) == '.') = false from rfl,
            Bool.false_and, Bool.false_eq_true, if_false, if_true]
          rw [hrest]
        · have hmem : m ∈ (c :: rest).dropWhile isWs := by
            have : m ∈ ((c :: rest).dropWhile isWs).dropWhile Char.isDigit := by
              rw [ht2]; exact List.mem_cons_self m t3
            exact (List.dropWhile_sublist Char.isDigit).subset this
          have hm : isPlainChar m = true :=
            hall m ((List.dropWhile_sublist isWs).subset hmem)
          have hm1 : (m == '.') = false := plain_beq_special_false hm (by decide)
          simp only [ht2, List.headD_cons, hm1, Bool.false_and, Bool.false_eq_true,
            if_false, if_true]
          rw [hrest]

lemma subNumbered_plain_id (l : List Char) (hall : ∀ c ∈ l, isPlainChar c = true) :
    subNumbered l = l := subNumberedAux_plain_id l.length true l hall

lemma subBlockquoteAux_plain_id :
    ∀ (fuel : Nat) (b : Bool) (l : List Char), (∀ c ∈ l, isPlainChar c = true) →
      subBlockquoteAux fuel b l = l := by
  intro fuel
  induction fuel with
  | zero => intro b l _; rfl
  | succ fuel ih =>
    intro b l hall
    cases l with
    | nil => rfl
    | cons c rest =>
      have hc : isPlainChar c = true := hall c (by simp)
      have hrest := ih (c == '\n') rest (fun x hx => hall x (List.mem_cons_of_mem _ hx))
      have h1 : (c == '>') = false := plain_beq_special_false hc (by decide)
      rw [subBlockquoteAux]
      simp only [h1, Bool.and_false, Bool.false_eq_true, if_false]
      rw [hrest]

lemma subBlockquote_plain_id (l : List Char) (hall : ∀ c ∈ l, isPlainChar c = true) :
    subBlockquote l = l := subBlockquoteAux_plain_id l.length true l hall

lemma subHrAux_plain_id :
    ∀ (fuel : Nat) (b : Bool) (l : List Char), (∀ c ∈ l, isPlainChar c = true) →
      subHrAux fuel b l = l := by
  intro fuel
  induction fuel with
  | zero => intro b l _; rfl
  | succ fuel ih =>
    intro b l hall
    cases l with
    | nil => rfl
    | cons c rest =>
      have hc : isPlainChar c = true := hall c (by simp)
      have hrest := ih (c == '\n') rest (fun x hx => hall x (List.mem_cons_of_mem _ hx))
      have h1 : (c == '-') = false := plain_beq_special_false hc (by decide)
      have h2 : (c == '*') = false := plain_beq_special_false hc (by decide)
      have h3 : (c == '_') = false := plain_beq_special_false hc (by decide)
      cases b with
      | false =>
        rw [subHrAux]
        simp only [Bool.false_eq_true, if_false]
        rw [hrest]
      | true =>
        rw [subHrAux]
        simp only [List.takeWhile_cons, h1, h2, h3, Bool.or_self, Bool.false_or,
          Bool.false_eq_true, if_false, List.length_nil, if_true]
        simp only [show decide (3 ≤ 0) = false from rfl, Bool.false_and,
          Bool.false_eq_true, if_false]
        rw [hrest]

lemma subHr_plain_id (l : List Char) (hall : ∀ c ∈ l, isPlainChar c = true) :
    subHr l = l := subHrAux_plain_id l.length true l hall

lemma subBlankLinesAux_plain_id :
    ∀ (fuel : Nat) (l : List Char), (∀ c ∈ l, isPlainChar c = true) →
      subBlankLinesAux fuel l = l := by
  intro fuel
  induction fuel with
  | zero => intro l _; rfl
  | succ fuel ih =>
    intro l hall
    cases l with
    | nil => rfl
    | cons c rest =>
      have hc : isPlainChar c = true := hall c (by simp)
      have h1 : (c == '\n') = false := plain_beq_special_false hc (by decide)
      rw [subBlankLinesAux]
      simp only [h1, Bool.false_eq_true, if_false]
      rw [ih rest (fun x hx => hall x (List.mem_cons_of_mem _ hx))]

lemma subBlankLines_plain_id (l : List Char) (hall : ∀ c ∈ l, isPlainChar c = true) :
    subBlankLines l = l := subBlankLinesAux_plain_id l.length l hall

lemma subWsRunsAux_plain_id :
    ∀ (fuel : Nat) (l : List Char), (∀ c ∈ l, isPlainChar c = true) →
      noDoubleSpace l = true → subWsRunsAux fuel l = l := by
  intro fuel
  induction fuel with
  | zero => intro l _ _; rfl
  | succ fuel ih =>
    intro l hall hnd
    cases l with
    | nil => rfl
    | cons c rest =>
      have hc : isPlainChar c = true := hall c (by simp)
      have hallr : ∀ x ∈ rest, isPlainChar x = true :=
        fun x hx => hall x (List.mem_cons_of_mem _ hx)
      have hndr := noDoubleSpace_tail hnd
      by_cases hsp : c = ' '
      · subst hsp
        have hdrop : rest.dropWhile isWs = rest := by
          cases rest with
          | nil => rfl
          | cons d r2 =>
            have hd : isPlainChar d = true := hallr d (by simp)
            have hdne : ¬ d = ' ' := by
              intro hde
              subst hde
              simp [noDoubleSpace] at hnd
            simp [List.dropWhile_cons, plain_not_ws hd hdne]
        rw [subWsRunsAux]
        simp only [show isWs ' ' = true from rfl, if_true]
        rw [hdrop, ih rest hallr hndr]
      · have hw : isWs c = false := plain_not_ws hc hsp
        rw [subWsRunsAux]
        simp only [hw, Bool.false_eq_true, if_false]
        rw [ih rest hallr hndr]

lemma subWsRuns_plain_id (l : List Char) (hall : ∀ c ∈ l, isPlainChar c = true)
    (hnd : noDoubleSpace l = true) : subWsRuns l = l :=
  subWsRunsAux_plain_id l.length l hall hnd

lemma dropWhile_plain_id (l : List Char) (hall : ∀ c ∈ l, isPlainChar c = true)
    (hh : l.head? ≠ some ' ') : l.dropWhile isWs = l := by
  cases l with
  | nil => rfl
  | cons c rest =>
    have hc : isPlainChar c = true := hall c (by simp)
    have hne : ¬ c = ' ' := fun h => hh (by rw [h]; rfl)
    simp [List.dropWhile_cons, plain_not_ws hc hne]

lemma stripWs_plain_id (l : List Char) (hall : ∀ c ∈ l, isPlainChar c = true)
    (hh : l.head? ≠ some ' ') (hl : l.getLast? ≠ some ' ') : stripWs l = l := by
  unfold stripWs
  rw [dropWhile_plain_id l hall hh]
  rw [dropWhile_plain_id l.reverse (fun x hx => hall x (List.mem_reverse.mp hx))
    (by rw [List.head?_reverse]; exact hl)]
  exact List.reverse_reverse l

/-- Claim C2 (amended): cleaning already-clean plain text (ASCII letters in
words separated by single spaces, no leading or trailing space) returns it
unchanged, so cleaning is idempotent on such text; full idempotence
`clean(clean(x)) = clean(x)` fails in general — the multiline header pass
eats one leading `#` run per pass (see the counterexample). -/
theorem C2_clean_markdown_plain_fixpoint (l : List Char) (h : isPlain l = true) :
    clean_markdown_for_tts l = l ∧
    clean_markdown_for_tts (clean_markdown_for_tts l) = clean_markdown_for_tts l := by
  simp only [isPlain, Bool.and_eq_true, List.all_eq_true, Bool.not_eq_true',
    beq_eq_false_iff_ne] at h
  obtain ⟨⟨⟨hall, hnd⟩, hh⟩, hl⟩ := h
  have hfix : clean_markdown_for_tts l = l := by
    unfold clean_markdown_for_tts
    rw [subBold_plain_id l hall, subItalic_plain_id l hall, subDunder_plain_id l hall,
      subUnder_plain_id l hall, subHeaders_plain_id l hall, subLinks_plain_id l hall,
      subCodeFence_plain_id l hall, subInlineCode_plain_id l hall,
      subBullets_plain_id l hall, subNumbered_plain_id l hall,
      subBlockquote_plain_id l hall, subHr_plain_id l hall, subHtml_plain_id l hall,
      subBlankLines_plain_id l hall, subWsRuns_plain_id l hall hnd,
      stripWs_plain_id l hall hh hl]
  exact ⟨hfix, by rw [hfix]; exact hfix⟩

/-- Witness for C2 (amended) at a concrete plain string. -/
theorem C2_clean_markdown_plain_fixpoint_witness :
    isPlain "hello world".data = true ∧
    (clean_markdown_for_tts "hello world".data = "hello world".data ∧
      clean_markdown_for_tts (clean_markdown_for_tts "hello world".data) =
        clean_markdown_for_tts "hello world".data) :=
  ⟨by decide, C2_clean_markdown_plain_fixpoint _ (by decide)⟩

/-- Claim C2 counterexample: cleaning is not idempotent.  The multiline
header substitution removes one leading run of `#` per pass, so
`"## # x"` cleans to `"# x"`, which cleans again to `"x"`. -/
theorem C2_counterexample :
    clean_markdown_for_tts (clean_markdown_for_tts ['#', '#', ' ', '#', ' ', 'x']) ≠
      clean_markdown_for_tts ['#', '#', ' ', '#', ' ', 'x'] ∧
    clean_markdown_for_tts ['#', '#', ' ', '#', ' ', 'x'] = ['#', ' ', 'x'] ∧
    clean_markdown_for_tts ['#', ' ', 'x'] = ['x'] := by
  refine ⟨?_, ?_, ?_⟩ <;> decide

end ConvEngine
